import Mathlib

/-!
Shallow embedding of src/scheduler.py from the well_scheduler repository.

Modelling conventions:
- A Python datetime is modelled as an integer day ordinal (type Date := Int);
  timedelta arithmetic over whole days becomes integer addition.  All the
  source code builds timedeltas from whole-day counts only.
- Python None-able attributes become Option values.  Python truthiness tests
  such as `if not x` are modelled exactly: for integers both None and 0 are
  falsy (pyTruthyInt); a datetime value is always truthy, so for dates
  falsy means None.
- Fallible Python code (raise) is modelled with Except PyErr.  The message
  strings are abbreviated paraphrases of the exceptions the interpreter or
  the source would produce; only the error constructor matters for proofs.
- The source mutates rigs, crews and batches in place.  The embedding passes
  the lists through the loops explicitly and returns the updated Scheduler
  state.  A ScheduleEvent stores a snapshot of the resource and batch taken
  at append time; the proofs only read fields that the source never mutates
  after the append (name, kind, end_date, due dates) or that are written at
  append time, so snapshots agree with the aliased Python objects.
- Python list.sort with a key function is a stable sort and is modelled by
  List.insertionSort with the non-strict key comparison, which is stable.
  WellBatch.sort() uses WellBatch.__lt__, which is not a strict weak order,
  so the result of CPython timsort is algorithm dependent; it is modelled by
  the same stable insertion sort driven by the same comparator.  No theorem
  below depends on the order chosen among batches that compare both ways.
-/

/-- Python datetime as a proleptic day ordinal. -/
abbrev Date := Int

/-- Day ordinal of 2020-01-01 (datetime.toordinal in Python). -/
def d0 : Date := 737425

/-- Errors raised by the embedded code. -/
inductive PyErr
  | typeError (msg : String)
  | exception (msg : String)
deriving DecidableEq, Repr

/-- A dynamically typed Python value as stored in ScheduleEvent fields:
the buggy call sites in Scheduler.schedule put a datetime in the
event_duration slot and an int in the event_end slot. -/
inductive PyVal
  | vDate (d : Date)
  | vInt (n : Int)
deriving DecidableEq, Repr

/-- Python truthiness of an optional integer: None and 0 are falsy. -/
def pyTruthyInt : Option Int → Bool
  | none => false
  | some n => n != 0

/-- Python truthiness of an optional dynamic value: None and int 0 are
falsy, a datetime is always truthy. -/
def pyTruthyVal : Option PyVal → Bool
  | none => false
  | some (.vInt n) => n != 0
  | some (.vDate _) => true

/-- Well input record (scheduler.py lines 6-27). -/
structure Well where
  well_name : String
  drill_duration : Int
  frac_duration : Int
  date_allow_to_drill : Option Date := none
  date_allow_to_frac : Option Date := none
  due_date : Option Date := none
  lat : Option Float := none
  lon : Option Float := none
  priority : Option Int := none

/-- Tag distinguishing the Rig and FracCrew subclasses of Resource. -/
inductive ResKind
  | rig
  | fracCrew
deriving DecidableEq, Repr

/-- Resource (scheduler.py lines 30-52).  The source allows constructing a
Resource without a start_date, but every operation of Scheduler.schedule
(sorting, max, date arithmetic) raises TypeError on such a resource, so
completed runs never involve one; the embedding therefore requires a
start_date. -/
structure Resource where
  kind : ResKind
  name : String
  start_date : Date
  end_date : Option Date := none
deriving DecidableEq, Repr

/-- set_resource_availability (scheduler.py lines 38-42): assigns only
start_date; the end_date parameter is accepted but never read. -/
def Resource.set_resource_availability (r : Resource) (start_date : Date)
    (end_date : Option Date) : Resource :=
  { r with start_date := start_date }

/-- WellBatch (scheduler.py lines 55-133), aggregate fields plus mutable
scheduling status. -/
structure WellBatch where
  name : String
  wells : List Well
  drill_duration : Int
  frac_duration : Int
  date_allow_to_drill : Option Date
  date_allow_to_frac : Option Date
  due_date : Option Date
  priority : Option Int
  is_drilled : Bool
  drill_start : Option Date
  drill_end : Option Date
  is_fraced : Bool
  frac_start : Option Date
  frac_end : Option Date

/-- One step of the allow-to-drill aggregation loop (lines 69-77): wells
without the date are skipped, the rest are folded with min. -/
def minStep (acc : Option Date) (w : Well) : Option Date :=
  match w.date_allow_to_drill with
  | none => acc
  | some d =>
    match acc with
    | none => some d
    | some a => some (min a d)

/-- One step of the due-date aggregation loop (lines 78-84), folding max. -/
def maxStep (acc : Option Date) (w : Well) : Option Date :=
  match w.due_date with
  | none => acc
  | some d =>
    match acc with
    | none => some d
    | some a => some (max a d)

/-- One step of the priority aggregation loop (lines 85-92).  Python
truthiness is used on both the well priority and the accumulator, so a
priority of 0 is skipped exactly like None. -/
def priStep (acc : Option Int) (w : Well) : Option Int :=
  if pyTruthyInt w.priority = false then acc
  else if pyTruthyInt acc = false then w.priority
  else
    match acc, w.priority with
    | some a, some p => some (min a p)
    | _, _ => acc

/-- WellBatch.__init__ (lines 60-102).  The priority loop only runs when
the explicit override is falsy (None or 0), and its accumulator starts at
that falsy override value, so an override of 0 survives only if no well
has a nonzero priority. -/
def mkWellBatch (name : String) (wells : List Well) (priority : Option Int) : WellBatch :=
  { name := name
    wells := wells
    drill_duration := wells.foldl (fun s w => s + w.drill_duration) 0
    frac_duration := wells.foldl (fun s w => s + w.frac_duration) 0
    date_allow_to_drill := wells.foldl minStep none
    date_allow_to_frac := none
    due_date := wells.foldl maxStep none
    priority := if pyTruthyInt priority then priority else wells.foldl priStep priority
    is_drilled := false
    drill_start := none
    drill_end := none
    is_fraced := false
    frac_start := none
    frac_end := none }

/-- set_drill_status (lines 104-107). -/
def WellBatch.set_drill_status (wb : WellBatch) (drill_start : Date) : WellBatch :=
  { wb with
    is_drilled := true
    drill_start := some drill_start
    drill_end := some (drill_start + wb.drill_duration) }

/-- set_frac_status (lines 109-116).  The comparison frac_start <
drill_end would raise TypeError in Python if drill_end were None; that
branch is unreachable because is_drilled implies drill_end is set. -/
def WellBatch.set_frac_status (wb : WellBatch) (frac_start : Date) :
    Except PyErr WellBatch :=
  if wb.is_drilled = false then .error (.exception "Cannot frac before drill")
  else
    match wb.drill_end with
    | none => .error (.typeError "comparison between datetime and NoneType")
    | some de =>
      if frac_start < de then .error (.exception "Frac cannot start before drill end")
      else
        .ok { wb with
              is_fraced := true
              frac_start := some frac_start
              frac_end := some (frac_start + wb.frac_duration) }

/-- WellBatch.__lt__ (lines 118-133), with Python truthiness on the
priorities (0 behaves like None) and on the dates (only None is falsy).
When neither batch has a truthy priority or an allow-to-drill date the
method returns True unconditionally. -/
def WellBatch.lt (a b : WellBatch) : Bool :=
  if pyTruthyInt a.priority && pyTruthyInt b.priority then
    decide (a.priority.getD 0 < b.priority.getD 0)
  else if pyTruthyInt a.priority && !pyTruthyInt b.priority then true
  else if !pyTruthyInt a.priority && pyTruthyInt b.priority then false
  else if a.date_allow_to_drill.isSome && b.date_allow_to_drill.isSome then
    decide (a.date_allow_to_drill.getD 0 < b.date_allow_to_drill.getD 0)
  else if a.date_allow_to_drill.isSome && !b.date_allow_to_drill.isSome then true
  else if !a.date_allow_to_drill.isSome && b.date_allow_to_drill.isSome then false
  else true

/-- ScheduleEvent record (lines 136-152). -/
structure ScheduleEvent where
  resource : Resource
  well_batch : WellBatch
  event_start : Date
  event_duration : PyVal
  event_end : PyVal

/-- ScheduleEvent.__init__ (lines 137-152): if the event_end argument is
truthy it is stored as given; otherwise the end is computed as event_start
plus timedelta(event_duration), which raises TypeError when the
event_duration slot holds a datetime (as it does at the call sites in
Scheduler.schedule). -/
def mkScheduleEvent (resource : Resource) (well_batch : WellBatch) (event_start : Date)
    (event_duration : PyVal) (event_end : Option PyVal) : Except PyErr ScheduleEvent :=
  let fallback : Except PyErr ScheduleEvent :=
    match event_duration with
    | .vInt n => .ok ⟨resource, well_batch, event_start, event_duration, .vDate (event_start + n)⟩
    | .vDate _ => .error (.typeError "unsupported type for timedelta days component datetime")
  match event_end with
  | some v =>
    if pyTruthyVal (some v) then
      .ok ⟨resource, well_batch, event_start, event_duration, v⟩
    else fallback
  | none => fallback

/-- Scheduler state (lines 158-169).  simops_pairs is only assigned when
schedule(simops=True) runs; it is modelled as a list that defaults to
empty. -/
structure Scheduler where
  rigs : List Resource
  frac_crews : List Resource
  well_batches : List WellBatch
  planning_period_start : Option Date := none
  planning_period_end : Option Date := none
  frac_lag : Option Int := none
  production_lag : Option Int := none
  schedule_events : List ScheduleEvent := []
  simops_pairs : List (Well × Well) := []

/-- Scheduler.__init__ (lines 159-169). -/
def mkScheduler (rigs frac_crews : List Resource) (well_batches : List WellBatch) :
    Scheduler :=
  { rigs := rigs
    frac_crews := frac_crews
    well_batches := well_batches }

/-- set_planning_horizon (lines 171-173). -/
def Scheduler.set_planning_horizon (s : Scheduler) (start finish : Date) : Scheduler :=
  { s with planning_period_start := some start, planning_period_end := some finish }

/-- set_frac_lag (lines 175-176). -/
def Scheduler.set_frac_lag (s : Scheduler) (frac_lag_days : Int) : Scheduler :=
  { s with frac_lag := some frac_lag_days }

/-- set_production_lag (lines 178-179). -/
def Scheduler.set_production_lag (s : Scheduler) (prod_lag_days : Int) : Scheduler :=
  { s with production_lag := some prod_lag_days }

/-- Models `bound and end_date > bound` for an optional datetime bound
(datetimes are always truthy). -/
def dateTruthyGt (end_date : Date) (bound : Option Date) : Bool :=
  match bound with
  | some b => decide (b < end_date)
  | none => false

/-- Scheduler._is_valid_assignment (lines 254-274).  Note that the
candidate start uses the batch allow-to-drill date for rigs and frac crews
alike; the frac lag plays no role beyond the configuration check.  The
`self` object is consulted only for frac_lag, which is passed explicitly. -/
def is_valid_assignment (frac_lag : Option Int) (resource : Resource)
    (well_batch : WellBatch) : Except PyErr Bool :=
  let start_date : Date :=
    match well_batch.date_allow_to_drill with
    | some d => max resource.start_date d
    | none => resource.start_date
  let endE : Except PyErr Date :=
    match resource.kind with
    | .rig => .ok (start_date + well_batch.drill_duration)
    | .fracCrew =>
      if pyTruthyInt frac_lag then .ok (start_date + well_batch.frac_duration)
      else .error (.exception "Set frac lag using set_grac_lag before scheduling")
  match endE with
  | .error e => .error e
  | .ok end_date =>
    if resource.end_date.isNone && well_batch.due_date.isNone then .ok true
    else if dateTruthyGt end_date resource.end_date then .ok false
    else if dateTruthyGt end_date well_batch.due_date then .ok false
    else .ok true

/-- Stable sort of a resource pool by ascending start_date, modelling
list.sort(key=lambda x: x.start_date). -/
def sortResources (pool : List Resource) : List Resource :=
  pool.insertionSort (fun a b => a.start_date ≤ b.start_date)

/-- Sort of the batch list by WellBatch.__lt__, modelling
well_batches.sort() (see the file header note on comparator sorts). -/
def sortBatches (batches : List WellBatch) : List WellBatch :=
  batches.insertionSort (fun a b => WellBatch.lt a b = true)

/-- The effective drill start for a rig and batch (lines 192-197):
the later of the rig availability and the batch allow-to-drill date when
the latter is set. -/
def effStartDrill (wb : WellBatch) (rig : Resource) : Date :=
  match wb.date_allow_to_drill with
  | some d => max rig.start_date d
  | none => rig.start_date

/-- The commit block of one DRILL assignment (lines 192-212): compute
drill_start and drill_end, mark the rig busy until drill_end plus one
day, set the batch drill status, and build the ScheduleEvent with the
swapped positional arguments of line 204-212. -/
def drillCommit (wb : WellBatch) (rig : Resource) :
    Except PyErr (Resource × WellBatch × ScheduleEvent) :=
  let drill_start : Date := effStartDrill wb rig
  let drill_end := drill_start + wb.drill_duration
  let rig1 := rig.set_resource_availability (drill_end + 1) none
  let wb1 := wb.set_drill_status drill_start
  match mkScheduleEvent rig1 wb1 drill_start (.vDate drill_end)
      (some (.vInt wb.drill_duration)) with
  | .error e => .error e
  | .ok ev => .ok (rig1, wb1, ev)

/-- The commit block of one FRAC assignment (lines 225-243), entered with
the drill end date and the configured lag already extracted: compute
frac_start and frac_end, mark the crew busy until frac_end plus one day,
set the frac status (which re-checks the precedence), and build the
ScheduleEvent with the swapped positional arguments of lines 235-243. -/
def fracCommit (lag : Int) (wb : WellBatch) (de : Date) (crew : Resource) :
    Except PyErr (Resource × WellBatch × ScheduleEvent) :=
  let frac_start := max crew.start_date (de + lag)
  let frac_end := frac_start + wb.frac_duration
  let crew1 := crew.set_resource_availability (frac_end + 1) none
  match wb.set_frac_status frac_start with
  | .error e => .error e
  | .ok wb1 =>
    match mkScheduleEvent crew1 wb1 frac_start (.vDate frac_end)
        (some (.vInt wb.frac_duration)) with
    | .error e => .error e
    | .ok ev => .ok (crew1, wb1, ev)

/-- First-fit scan shared by both phases: walk the pool in order, ask
valid on each resource, commit on the first one that passes, and leave
every other pool entry in place.  Returns the updated pool, the possibly
updated batch, and the appended event if any. -/
def firstFit (valid : Resource → Except PyErr Bool)
    (commit : Resource → Except PyErr (Resource × WellBatch × ScheduleEvent))
    (wb : WellBatch) :
    List Resource → Except PyErr (List Resource × WellBatch × Option ScheduleEvent)
  | [] => .ok ([], wb, none)
  | r :: rest =>
    match valid r with
    | .error e => .error e
    | .ok false =>
      match firstFit valid commit wb rest with
      | .error e => .error e
      | .ok (rest1, wb1, evOpt) => .ok (r :: rest1, wb1, evOpt)
    | .ok true =>
      match commit r with
      | .error e => .error e
      | .ok (r1, wb1, ev) => .ok (r1 :: rest, wb1, some ev)

/-- The DRILL phase inner loop (lines 190-213): first-fit over the rigs
with the drill commit. -/
def drillScan (frac_lag : Option Int) (wb : WellBatch) :
    List Resource → Except PyErr (List Resource × WellBatch × Option ScheduleEvent) :=
  firstFit (fun rig => is_valid_assignment frac_lag rig wb) (drillCommit wb) wb

/-- The FRAC phase inner loop (lines 223-244): first-fit over the crews.
The undrilled-batch check at lines 217-222 only prints, it does not skip
the batch, so an undrilled batch that passes the validity check reaches
drill_end + timedelta(frac_lag) and raises TypeError on None; a None
frac_lag inside timedelta would raise as well, though the validity check
has already rejected a falsy lag at that point. -/
def fracScan (frac_lag : Option Int) (wb : WellBatch) :
    List Resource → Except PyErr (List Resource × WellBatch × Option ScheduleEvent) :=
  firstFit (fun crew => is_valid_assignment frac_lag crew wb)
    (fun crew =>
      match wb.drill_end with
      | none => .error (.typeError "unsupported operand types for + NoneType and timedelta")
      | some de =>
        match frac_lag with
        | none => .error (.typeError "unsupported type for timedelta days component NoneType")
        | some lag => fracCommit lag wb de crew)
    wb

/-- Phase outer loop shared by both phases (lines 189-214 and 216-245):
per batch run the scan, append the event if one was produced, then
re-sort the pool by availability. -/
def phaseLoop
    (scan : WellBatch → List Resource →
      Except PyErr (List Resource × WellBatch × Option ScheduleEvent)) :
    List WellBatch → List Resource → List ScheduleEvent →
    Except PyErr (List WellBatch × List Resource × List ScheduleEvent)
  | [], pool, evs => .ok ([], pool, evs)
  | wb :: rest, pool, evs =>
    match scan wb pool with
    | .error e => .error e
    | .ok (pool1, wb1, evOpt) =>
      let evs1 := evs ++ evOpt.toList
      let pool2 := sortResources pool1
      match phaseLoop scan rest pool2 evs1 with
      | .error e => .error e
      | .ok (rest1, pool3, evs2) => .ok (wb1 :: rest1, pool3, evs2)

/-- The DRILL phase outer loop (lines 189-214). -/
def drillPhase (frac_lag : Option Int) :
    List WellBatch → List Resource → List ScheduleEvent →
    Except PyErr (List WellBatch × List Resource × List ScheduleEvent) :=
  phaseLoop (drillScan frac_lag)

/-- The FRAC phase outer loop (lines 216-245). -/
def fracPhase (frac_lag : Option Int) :
    List WellBatch → List Resource → List ScheduleEvent →
    Except PyErr (List WellBatch × List Resource × List ScheduleEvent) :=
  phaseLoop (fracScan frac_lag)

/-- Iteration over a WellBatch object, as in `for well in
self.well_batches[i]` (line 280): WellBatch defines neither __iter__ nor
__getitem__, so the interpreter raises TypeError. -/
def iterWellBatch (wb : WellBatch) : Except PyErr (List Well) :=
  .error (.typeError "WellBatch object is not iterable")

/-- Degrees to radians, as math.radians. -/
def radians (deg : Float) : Float :=
  deg * 3.141592653589793 / 180

/-- Scheduler._haversine_dist (lines 295-309).  The source never guards
against missing coordinates, so math.radians(None) raises TypeError when a
well lacks lat or lon. -/
def haversine_dist (lon1 lat1 lon2 lat2 : Option Float) : Except PyErr Float :=
  match lon1, lat1, lon2, lat2 with
  | some o1, some a1, some o2, some a2 =>
    let o1 := radians o1
    let a1 := radians a1
    let o2 := radians o2
    let a2 := radians a2
    let dlon := o2 - o1
    let dlat := a2 - a1
    let h := Float.sin (dlat / 2) ^ 2 +
      Float.cos a1 * Float.cos a2 * Float.sin (dlon / 2) ^ 2
    let c := 2 * Float.asin (Float.sqrt h)
    .ok (c * 6371)
  | _, _, _, _ => .error (.typeError "must be real number, not NoneType")

/-- Inner scan of wells of the second batch for one well of the first
batch (lines 282-289): stop at the first pair within the threshold. -/
def simops_scan_other (threshold : Float) (well : Well) :
    List Well → Except PyErr (Option (Well × Well))
  | [] => .ok none
  | other :: rest =>
    match haversine_dist well.lon well.lat other.lon other.lat with
    | .error e => .error e
    | .ok dist =>
      if dist < threshold then .ok (some (well, other))
      else simops_scan_other threshold well rest

/-- Scan of the wells of the first batch (lines 280-291): stop the whole
batch pair at the first conflicting well pair. -/
def simops_scan_batch (threshold : Float) (bj : WellBatch) :
    List Well → Except PyErr (Option (Well × Well))
  | [] => .ok none
  | well :: rest =>
    match iterWellBatch bj with
    | .error e => .error e
    | .ok wellsJ =>
      match simops_scan_other threshold well wellsJ with
      | .error e => .error e
      | .ok (some p) => .ok (some p)
      | .ok none => simops_scan_batch threshold bj rest

/-- One unordered batch pair (chosen i < j): iterate the first batch
object and scan.  The iteration itself raises TypeError. -/
def simops_pair_scan (threshold : Float) (bi bj : WellBatch) :
    Except PyErr (List (Well × Well)) :=
  match iterWellBatch bi with
  | .error e => .error e
  | .ok wellsI =>
    match simops_scan_batch threshold bj wellsI with
    | .error e => .error e
    | .ok (some p) => .ok [p]
    | .ok none => .ok []

/-- Pair the head batch with every later batch. -/
def simops_with_each (threshold : Float) (b : WellBatch) :
    List WellBatch → Except PyErr (List (Well × Well))
  | [] => .ok []
  | c :: rest =>
    match simops_pair_scan threshold b c with
    | .error e => .error e
    | .ok ps =>
      match simops_with_each threshold b rest with
      | .error e => .error e
      | .ok qs => .ok (ps ++ qs)

/-- Scheduler._generate_simops_pairs (lines 276-293): the double index
loop over unordered batch pairs, default threshold 3000. -/
def generate_simops_pairs (threshold : Float) :
    List WellBatch → Except PyErr (List (Well × Well))
  | [] => .ok []
  | b :: rest =>
    match simops_with_each threshold b rest with
    | .error e => .error e
    | .ok ps =>
      match generate_simops_pairs threshold rest with
      | .error e => .error e
      | .ok qs => .ok (ps ++ qs)

/-- Scheduler.schedule (lines 181-245): sort batches and both resource
pools, optionally run the simops detector, then the DRILL phase followed
by the FRAC phase over the same (updated) batch list. -/
def Scheduler.schedule (s : Scheduler) (simops : Bool) : Except PyErr Scheduler :=
  let batches := sortBatches s.well_batches
  let rigs := sortResources s.rigs
  let crews := sortResources s.frac_crews
  match (if simops then generate_simops_pairs 3000 batches else .ok s.simops_pairs) with
  | .error e => .error e
  | .ok pairs =>
    match drillPhase s.frac_lag batches rigs s.schedule_events with
    | .error e => .error e
    | .ok (batches1, rigs1, evs1) =>
      match fracPhase s.frac_lag batches1 crews evs1 with
      | .error e => .error e
      | .ok (batches2, crews1, evs2) =>
        .ok { s with
              well_batches := batches2
              rigs := rigs1
              frac_crews := crews1
              schedule_events := evs2
              simops_pairs := pairs }

/-- Scheduler.get_schedule_events (lines 247-252). -/
def Scheduler.get_schedule_events (s : Scheduler) : Except PyErr (List ScheduleEvent) :=
  if s.schedule_events.isEmpty then
    .error (.exception "No schedule events exist. Did you run schedule first?")
  else .ok s.schedule_events

/-! ## Concrete inputs for the evaluated claims -/

/-- A well with the given durations and no optional attributes. -/
def wPlain (nm : String) (dd fd : Int) : Well :=
  { well_name := nm, drill_duration := dd, frac_duration := fd }

/-- A well with the given durations and a due date. -/
def wDue (nm : String) (dd fd : Int) (due : Date) : Well :=
  { wPlain nm dd fd with due_date := some due }

/-- Rig named nm available from st with optional hard end. -/
def mkRig (nm : String) (st : Date) (en : Option Date) : Resource :=
  { kind := .rig, name := nm, start_date := st, end_date := en }

/-- Frac crew named nm available from st with optional hard end. -/
def mkCrew (nm : String) (st : Date) (en : Option Date) : Resource :=
  { kind := .fracCrew, name := nm, start_date := st, end_date := en }

/-- C2 scenario: 2 rigs, 2 crews, frac lag 10, two 45/15 batches. -/
def c2sched : Scheduler :=
  (mkScheduler
    [mkRig "Rig 1" d0 none, mkRig "Rig 2" d0 none]
    [mkCrew "Crew 1" d0 none, mkCrew "Crew 2" d0 none]
    [mkWellBatch "Pad 1" [wPlain "Well 1" 45 15] none,
     mkWellBatch "Pad 2" [wPlain "Well 2" 45 15] none]).set_frac_lag 10

def c2run : Except PyErr Scheduler := c2sched.schedule false

/-- Claim C2: on the concrete scenario of 2 rigs and 2 crews starting
2020-01-01 with no end dates, frac lag 10 and two 45/15 batches with no
due dates or priorities, schedule() succeeds, both batches drill starting
2020-01-01 on distinct rigs, both fracs start exactly at drill_end + 10
days (day d0 + 55), and get_schedule_events() returns exactly 4 events. -/
theorem c2_concrete_scenario :
    (c2run.bind Scheduler.get_schedule_events).map List.length = .ok 4 ∧
    c2run.map (fun st => st.schedule_events.map (fun e => e.resource.name)) =
      .ok ["Rig 1", "Rig 2", "Crew 1", "Crew 2"] ∧
    c2run.map (fun st => st.well_batches.map (fun b => (b.drill_start, b.drill_end, b.frac_start))) =
      .ok [(some d0, some (d0 + 45), some (d0 + 55)),
           (some d0, some (d0 + 45), some (d0 + 55))] ∧
    (d0 + 55 : Int) = (d0 + 45) + 10 :=
  ⟨rfl, rfl, rfl, by decide⟩

/-- C1 scenario: the single rig ends too early for the 45-day batch, so
the batch is never drilled; the crew has no end date. -/
def c1sched : Scheduler :=
  (mkScheduler
    [mkRig "Rig 1" d0 (some (d0 + 20))]
    [mkCrew "Crew 1" d0 none]
    [mkWellBatch "Pad 1" [wPlain "Well 1" 45 15] none]).set_frac_lag 10

/-- Claim C1 (refuted, code bug): with one rig whose window is too short
to drill the only batch and one unconstrained frac crew, the FRAC phase
does not skip the undrilled batch: the missing continue after the
undrilled check lets control reach drill_end + timedelta(frac_lag) with
drill_end = None, so schedule() raises TypeError instead of completing. -/
theorem c1_undrilled_batch_crashes :
    c1sched.schedule false =
      .error (.typeError "unsupported operand types for + NoneType and timedelta") := rfl

/-- C3 scenario: single rig and crew, batch due 50 days after start. -/
def c3sched : Scheduler :=
  (mkScheduler
    [mkRig "Rig 1" d0 none]
    [mkCrew "Crew 1" d0 none]
    [mkWellBatch "Pad 1" [wDue "Well 1" 45 15 (d0 + 50)] none]).set_frac_lag 10

def c3run : Except PyErr Scheduler := c3sched.schedule false

/-- Claim C3 (refuted, code bug): _is_valid_assignment computes the frac
candidate start from the allow-to-drill date, not from drill_end +
frac_lag, so the committed frac of a batch due on day d0 + 50 passes the
check and ends on day d0 + 70, past its due date, and the frac event is
still appended. -/
theorem c3_frac_end_exceeds_due_date :
    c3run.map (fun st => st.well_batches.map (fun b => (b.due_date, b.frac_end))) =
      .ok [(some (d0 + 50), some (d0 + 70))] ∧
    c3run.map (fun st => st.schedule_events.length) = .ok 2 ∧
    (d0 + 50 : Int) < d0 + 70 :=
  ⟨rfl, rfl, by decide⟩

/-- C4 scenario: one rig, one crew, one batch. -/
def c4sched : Scheduler :=
  (mkScheduler
    [mkRig "Rig 1" d0 none]
    [mkCrew "Crew 1" d0 none]
    [mkWellBatch "Pad 1" [wPlain "Well 1" 45 15] none]).set_frac_lag 10

/-- Claim C4 (refuted, code bug): both append sites in schedule() pass
the positional arguments as (start, end, duration) against the
ScheduleEvent signature (start, event_duration, event_end=None), so every
logged event stores the end datetime in its event_duration field and the
integer duration in its event_end field; event_end is not event_start
plus event_duration days. -/
theorem c4_event_fields_swapped :
    (c4sched.schedule false).map
        (fun st => st.schedule_events.map (fun e => (e.event_start, e.event_duration, e.event_end))) =
      .ok [(d0, PyVal.vDate (d0 + 45), PyVal.vInt 45),
           (d0 + 55, PyVal.vDate (d0 + 70), PyVal.vInt 15)] := rfl

/-- C5 scenario: two batches of one well each, both wells at the same
coordinates. -/
def c5batches : List WellBatch :=
  [mkWellBatch "Pad 1" [{ wPlain "Well 1" 45 15 with lat := some 30.0, lon := some 100.0 }] none,
   mkWellBatch "Pad 2" [{ wPlain "Well 2" 45 15 with lat := some 30.0, lon := some 100.0 }] none]

/-- Claim C5 (refuted, code bug): for any two batches, conflicting or
not, _generate_simops_pairs iterates over the WellBatch object itself,
which defines no iteration protocol, so the detector raises TypeError
before any distance is computed; no conflict pair list is ever produced
and no missing-coordinate exclusion exists (radians of None would also
raise TypeError). -/
theorem c5_simops_not_iterable :
    generate_simops_pairs 3000 c5batches =
      .error (.typeError "WellBatch object is not iterable") := rfl

/-- Claim C10: set_resource_availability writes exactly the start_date
field: the given start is stored, name, kind and end_date are unchanged,
and the result does not depend on the end_date argument at all. -/
theorem c10_set_availability_only_start (r : Resource) (s : Date) (e : Option Date) :
    (r.set_resource_availability s e).start_date = s ∧
    (r.set_resource_availability s e).end_date = r.end_date ∧
    (r.set_resource_availability s e).name = r.name ∧
    (r.set_resource_availability s e).kind = r.kind ∧
    r.set_resource_availability s e = r.set_resource_availability s none :=
  ⟨rfl, rfl, rfl, rfl, rfl⟩

/-! ## Claim C7: WellBatch aggregation -/

/-- Specification of the allow-to-drill aggregate in the words of the
amended claim: the minimum over the wells that carry the date. -/
def allowSpec (wells : List Well) : Option Date :=
  (wells.filterMap (fun w => w.date_allow_to_drill)).min?

/-- Specification of the due-date aggregate: the maximum over the wells
that carry one. -/
def dueSpec (wells : List Well) : Option Date :=
  (wells.filterMap (fun w => w.due_date)).max?

/-- The nonzero well priorities, in well order. -/
def nonzeroPriorities (wells : List Well) : List Int :=
  wells.filterMap (fun w =>
    match w.priority with
    | some p => if p = 0 then none else some p
    | none => none)

/-- Specification of the batch priority in the words of the amended
claim: a nonzero override wins; otherwise the minimum nonzero well
priority; otherwise the override value as given (None, or a zero override
left in place). -/
def priSpec (wells : List Well) (override : Option Int) : Option Int :=
  if pyTruthyInt override then override
  else
    match (nonzeroPriorities wells).min? with
    | some m => some m
    | none => override

lemma foldl_add_sum (f : Well → Int) :
    ∀ (l : List Well) (a : Int), l.foldl (fun s w => s + f w) a = a + (l.map f).sum := by
  intro l
  induction l with
  | nil => intro a; simp
  | cons w ws ih =>
    intro a
    simp only [List.foldl_cons, List.map_cons, List.sum_cons, ih]
    omega

lemma foldl_minStep_some :
    ∀ (wells : List Well) (a : Date),
      wells.foldl minStep (some a) =
        some ((wells.filterMap (fun w => w.date_allow_to_drill)).foldl min a) := by
  intro wells
  induction wells with
  | nil => intro a; rfl
  | cons w ws ih =>
    intro a
    cases h : w.date_allow_to_drill with
    | none => simp [List.foldl_cons, List.filterMap_cons, minStep, h, ih]
    | some d => simp [List.foldl_cons, List.filterMap_cons, minStep, h, ih]

lemma foldl_minStep_none :
    ∀ wells : List Well, wells.foldl minStep none = allowSpec wells := by
  intro wells
  induction wells with
  | nil => rfl
  | cons w ws ih =>
    cases h : w.date_allow_to_drill with
    | none =>
      simpa [allowSpec, List.filterMap_cons, minStep, h] using ih
    | some d =>
      simp [allowSpec, List.filterMap_cons, minStep, h, foldl_minStep_some, List.min?]

lemma foldl_maxStep_some :
    ∀ (wells : List Well) (a : Date),
      wells.foldl maxStep (some a) =
        some ((wells.filterMap (fun w => w.due_date)).foldl max a) := by
  intro wells
  induction wells with
  | nil => intro a; rfl
  | cons w ws ih =>
    intro a
    cases h : w.due_date with
    | none => simp [List.foldl_cons, List.filterMap_cons, maxStep, h, ih]
    | some d => simp [List.foldl_cons, List.filterMap_cons, maxStep, h, ih]

lemma foldl_maxStep_none :
    ∀ wells : List Well, wells.foldl maxStep none = dueSpec wells := by
  intro wells
  induction wells with
  | nil => rfl
  | cons w ws ih =>
    cases h : w.due_date with
    | none =>
      simpa [dueSpec, List.filterMap_cons, maxStep, h] using ih
    | some d =>
      simp [dueSpec, List.filterMap_cons, maxStep, h, foldl_maxStep_some, List.max?]

lemma foldl_priStep_some :
    ∀ (wells : List Well) (a : Int), a ≠ 0 →
      wells.foldl priStep (some a) =
        some ((nonzeroPriorities wells).foldl min a) := by
  intro wells
  induction wells with
  | nil => intro a _; rfl
  | cons w ws ih =>
    intro a ha
    cases h : w.priority with
    | none => simp [List.foldl_cons, nonzeroPriorities, List.filterMap_cons, priStep,
        pyTruthyInt, h, ih a ha]
    | some p =>
      by_cases hp : p = 0
      · subst hp
        simp [List.foldl_cons, nonzeroPriorities, List.filterMap_cons, priStep,
          pyTruthyInt, h, ih a ha]
      · have hmin : min a p ≠ 0 := by
          rcases min_choice a p with hc | hc <;> rw [hc] <;> assumption
        simp [List.foldl_cons, nonzeroPriorities, List.filterMap_cons, priStep,
          pyTruthyInt, h, hp, ha, ih (min a p) hmin]

lemma foldl_priStep_falsy :
    ∀ (wells : List Well) (acc : Option Int), pyTruthyInt acc = false →
      wells.foldl priStep acc =
        (match (nonzeroPriorities wells).min? with
         | some m => some m
         | none => acc) := by
  intro wells
  induction wells with
  | nil => intro acc _; rfl
  | cons w ws ih =>
    intro acc hacc
    cases h : w.priority with
    | none =>
      simpa [nonzeroPriorities, List.filterMap_cons, priStep, pyTruthyInt, h]
        using ih acc hacc
    | some p =>
      by_cases hp : p = 0
      · subst hp
        simpa [nonzeroPriorities, List.filterMap_cons, priStep, pyTruthyInt, h]
          using ih acc hacc
      · have hw : pyTruthyInt w.priority = true := by simp [pyTruthyInt, h, hp]
        have hstep : priStep acc w = some p := by
          simp [priStep, hw, hacc]
          exact h
        have hnz : nonzeroPriorities (w :: ws) = p :: nonzeroPriorities ws := by
          simp [nonzeroPriorities, List.filterMap_cons, h, hp]
        rw [List.foldl_cons, hstep, foldl_priStep_some ws p hp, hnz]
        rfl

/-- Claim C7 counterexample input: explicit priority override 0 on a
batch whose only well has priority 5. -/
def c7batch : WellBatch :=
  mkWellBatch "Pad 1" [{ wPlain "Well 1" 45 15 with priority := some 5 }] (some 0)

/-- Claim C7 (refuted): the claim says an explicit override of 0 fixes
the batch priority at 0, but the constructor treats a zero override as
falsy, runs the aggregation loop, and stores the well priority 5. -/
theorem c7_zero_override_not_kept :
    c7batch.priority = some 5 ∧ c7batch.priority ≠ some 0 :=
  ⟨rfl, by decide⟩

/-- Claim C7 as amended: the constructor aggregates drill and frac
durations as sums, allow_to_drill as the minimum present date, due_date
as the maximum present date, and priority as the nonzero override if one
is given, else the minimum nonzero well priority, else the override value
as passed (so None, or a zero override that no well replaces). -/
theorem c7_batch_aggregates (name : String) (wells : List Well) (override : Option Int) :
    (mkWellBatch name wells override).drill_duration =
      (wells.map (fun w => w.drill_duration)).sum ∧
    (mkWellBatch name wells override).frac_duration =
      (wells.map (fun w => w.frac_duration)).sum ∧
    (mkWellBatch name wells override).date_allow_to_drill = allowSpec wells ∧
    (mkWellBatch name wells override).due_date = dueSpec wells ∧
    (mkWellBatch name wells override).priority = priSpec wells override := by
  refine ⟨?_, ?_, ?_, ?_, ?_⟩
  · simpa [mkWellBatch] using foldl_add_sum (fun w => w.drill_duration) wells 0
  · simpa [mkWellBatch] using foldl_add_sum (fun w => w.frac_duration) wells 0
  · simpa [mkWellBatch] using foldl_minStep_none wells
  · simpa [mkWellBatch] using foldl_maxStep_none wells
  · by_cases ho : pyTruthyInt override = true
    · simp [mkWellBatch, priSpec, ho]
    · have ho1 : pyTruthyInt override = false := by simpa using ho
      simp [mkWellBatch, priSpec, ho1, foldl_priStep_falsy wells override ho1]

/-! ## Claim C8: the frac lag configuration check -/

/-- Whether an Except result is an error. -/
def isErrorB {α : Type} : Except PyErr α → Bool
  | .error _ => true
  | .ok _ => false

def c8crew : Resource := mkCrew "Crew 1" d0 none

def c8batch : WellBatch := mkWellBatch "Pad 1" [wPlain "Well 1" 45 15] none

/-- Claim C8 (refuted): a frac lag explicitly configured as 0 is claimed
to count as set, but the check `if not self.frac_lag` treats 0 like None
and raises anyway. -/
theorem c8_zero_lag_raises :
    is_valid_assignment (some 0) c8crew c8batch =
      .error (.exception "Set frac lag using set_grac_lag before scheduling") := rfl

/-- Claim C8 as amended: the feasibility check on a frac crew raises the
configuration error exactly when the frac lag is falsy, that is unset or
set to 0; any nonzero configured lag passes, and rig checks never consult
the lag. -/
theorem c8_lag_check (frac_lag : Option Int) (r : Resource) (wb : WellBatch) :
    (r.kind = .fracCrew → pyTruthyInt frac_lag = false →
      is_valid_assignment frac_lag r wb =
        .error (.exception "Set frac lag using set_grac_lag before scheduling")) ∧
    (r.kind = .fracCrew → pyTruthyInt frac_lag = true →
      isErrorB (is_valid_assignment frac_lag r wb) = false) ∧
    (r.kind = .rig → isErrorB (is_valid_assignment frac_lag r wb) = false) ∧
    (pyTruthyInt frac_lag = false ↔ frac_lag = none ∨ frac_lag = some 0) := by
  refine ⟨?_, ?_, ?_, ?_⟩
  · intro hk hl
    simp [is_valid_assignment, hk, hl]
  · intro hk hl
    simp only [is_valid_assignment, hk, hl, if_true]
    split_ifs <;> rfl
  · intro hk
    simp only [is_valid_assignment, hk]
    split_ifs <;> rfl
  · cases frac_lag with
    | none => simp [pyTruthyInt]
    | some n =>
      by_cases hn : n = 0
      · subst hn; simp [pyTruthyInt]
      · simp [pyTruthyInt, hn]

/-- Witness for c8_lag_check: a zero lag raises on the concrete crew and
batch, a lag of 7 does not. -/
theorem c8_lag_check_witness :
    is_valid_assignment (some 0) c8crew c8batch =
      .error (.exception "Set frac lag using set_grac_lag before scheduling") ∧
    isErrorB (is_valid_assignment (some 7) c8crew c8batch) = false := by
  constructor
  · exact (c8_lag_check (some 0) c8crew c8batch).1 rfl (by decide)
  · exact (c8_lag_check (some 7) c8crew c8batch).2.1 rfl (by decide)

/-! ## Claim C6: the WellBatch ordering -/

/-- A batch with no priority and no allow-to-drill date. -/
def c6batch : WellBatch := mkWellBatch "Pad 1" [wPlain "Well 1" 45 15] none

/-- A batch with priority 1 and no allow-to-drill date. -/
def c6pri : WellBatch := mkWellBatch "Pad 2" [wPlain "Well 2" 45 15] (some 1)

/-- Claim C6 (refuted): the claimed ordering is strict, but __lt__
returns True when neither batch has a truthy priority or an
allow-to-drill date, so a batch compares less-than itself. -/
theorem c6_lt_self : WellBatch.lt c6batch c6batch = true := rfl

/-- Claim C6 as amended: a batch with a nonzero priority sorts before one
whose priority is unset or zero regardless of dates; two nonzero
priorities compare by value; with no nonzero priorities, present
allow-to-drill dates compare by value and a present date sorts before an
absent one; and when neither priorities nor dates discriminate, __lt__
answers true in both directions, so the comparison is not strict. -/
theorem c6_lt_characterization (a b : WellBatch) :
    (pyTruthyInt a.priority = true → pyTruthyInt b.priority = false →
      WellBatch.lt a b = true ∧ WellBatch.lt b a = false) ∧
    (∀ pa pb, a.priority = some pa → pa ≠ 0 → b.priority = some pb → pb ≠ 0 →
      WellBatch.lt a b = decide (pa < pb)) ∧
    (pyTruthyInt a.priority = false → pyTruthyInt b.priority = false →
      (∀ da db, a.date_allow_to_drill = some da → b.date_allow_to_drill = some db →
        WellBatch.lt a b = decide (da < db)) ∧
      (a.date_allow_to_drill.isSome = true → b.date_allow_to_drill = none →
        WellBatch.lt a b = true ∧ WellBatch.lt b a = false) ∧
      (a.date_allow_to_drill = none → b.date_allow_to_drill = none →
        WellBatch.lt a b = true ∧ WellBatch.lt b a = true)) := by
  refine ⟨?_, ?_, ?_⟩
  · intro ta tb
    constructor <;> simp [WellBatch.lt, ta, tb]
  · intro pa pb hpa hpa0 hpb hpb0
    have ta : pyTruthyInt (some pa) = true := by simp [pyTruthyInt, hpa0]
    have tb : pyTruthyInt (some pb) = true := by simp [pyTruthyInt, hpb0]
    simp only [WellBatch.lt, hpa, hpb, ta, tb]
    simp [Option.getD]
  · intro ta tb
    refine ⟨?_, ?_, ?_⟩
    · intro da db hda hdb
      simp [WellBatch.lt, ta, tb, hda, hdb]
    · intro hda hdb
      constructor <;> simp [WellBatch.lt, ta, tb, hda, hdb]
    · intro hda hdb
      constructor <;> simp [WellBatch.lt, ta, tb, hda, hdb]

/-- Witness for c6_lt_characterization: the priority-1 batch sorts
before the priority-free batch and not conversely. -/
theorem c6_lt_witness :
    WellBatch.lt c6pri c6batch = true ∧ WellBatch.lt c6batch c6pri = false :=
  (c6_lt_characterization c6pri c6batch).1 (by decide) (by decide)

/-! ## Claim C9: no resource is double-booked -/

/-- Identity key of a resource: subclass tag and name (distinct pooled
resources are assumed to carry distinct keys, mirroring Python object
identity). -/
def rKey (r : Resource) : ResKind × String := (r.kind, r.name)

/-- Identity key of the resource snapshot stored in an event. -/
def evKey (e : ScheduleEvent) : ResKind × String :=
  (e.resource.kind, e.resource.name)

/-- The end date of the committed assignment interval.  Because the call
sites in schedule() pass the positional arguments swapped (claim C4), the
end datetime of the interval is the value stored in the event_duration
field; this accessor recovers it. -/
def evEnd (e : ScheduleEvent) : Option Date :=
  match e.event_duration with
  | .vDate d => some d
  | .vInt _ => none

/-- Every event in the log ends at least one day before the current
availability cursor of any pooled resource bearing its key. -/
def cursorInv (pool : List Resource) (evs : List ScheduleEvent) : Prop :=
  ∀ e ∈ evs, ∀ r ∈ pool, rKey r = evKey e →
    ∃ d, evEnd e = some d ∧ d + 1 ≤ r.start_date

/-- Separation of two events on the same resource, in log order: the
earlier assignment interval ends at least one day before the later one
starts.  This entails that the half-open intervals from event_start to
the committed end are pairwise disjoint. -/
def gapOk (e1 e2 : ScheduleEvent) : Prop :=
  evKey e1 = evKey e2 → ∃ d, evEnd e1 = some d ∧ d + 1 ≤ e2.event_start

lemma effStartDrill_ge (wb : WellBatch) (rig : Resource) :
    rig.start_date ≤ effStartDrill wb rig := by
  unfold effStartDrill
  cases wb.date_allow_to_drill with
  | none => exact le_refl _
  | some d => exact le_max_left _ _

lemma mkScheduleEvent_ok {r : Resource} {wb : WellBatch} {st en : Date} {dur : Int}
    {ev : ScheduleEvent}
    (h : mkScheduleEvent r wb st (.vDate en) (some (.vInt dur)) = .ok ev) :
    ev.resource = r ∧ ev.event_start = st ∧ evEnd ev = some en := by
  by_cases hd : dur = 0
  · subst hd
    simp [mkScheduleEvent, pyTruthyVal] at h
  · have ht : pyTruthyVal (some (.vInt dur)) = true := by simp [pyTruthyVal, hd]
    simp only [mkScheduleEvent, ht, if_true] at h
    injection h with h
    subst h
    exact ⟨rfl, rfl, rfl⟩

lemma set_frac_status_frac_duration {wb wb1 : WellBatch} {fs : Date}
    (h : wb.set_frac_status fs = .ok wb1) :
    wb1.frac_duration = wb.frac_duration := by
  unfold WellBatch.set_frac_status at h
  split at h
  · simp at h
  · split at h
    · simp at h
    · split at h
      · simp at h
      · injection h with h
        subst h
        rfl

/-- What one committed assignment guarantees: the pooled resource keeps
its key, the event snapshots that resource, the event starts no earlier
than the resource cursor, ends at the recorded interval end no earlier
than its start, and the new cursor is exactly that end plus one day.  The
updated batch keeps its frac duration. -/
def commitSpec (wb : WellBatch)
    (commit : Resource → Except PyErr (Resource × WellBatch × ScheduleEvent)) : Prop :=
  ∀ r r1 wb1 ev, commit r = .ok (r1, wb1, ev) →
    rKey r1 = rKey r ∧ ev.resource = r1 ∧ r.start_date ≤ ev.event_start ∧
    (∃ d, evEnd ev = some d ∧ ev.event_start ≤ d ∧ d + 1 = r1.start_date) ∧
    wb1.frac_duration = wb.frac_duration

lemma drillCommit_spec (wb : WellBatch) (hdur : 0 ≤ wb.drill_duration) :
    commitSpec wb (drillCommit wb) := by
  intro r r1 wb1 ev h
  simp only [drillCommit] at h
  split at h
  · exact Except.noConfusion h
  · rename_i ev2 hme
    injection h with h
    injection h with h1 h
    injection h with h2 h3
    subst h1
    subst h2
    subst h3
    obtain ⟨hres, hstart, hend⟩ := mkScheduleEvent_ok hme
    refine ⟨rfl, hres, ?_, ⟨effStartDrill wb r + wb.drill_duration, hend, ?_, rfl⟩, rfl⟩
    · rw [hstart]
      exact effStartDrill_ge wb r
    · rw [hstart]
      exact le_add_of_nonneg_right hdur

lemma fracCommit_spec (lag : Int) (wb : WellBatch) (de : Date)
    (hdur : 0 ≤ wb.frac_duration) :
    commitSpec wb (fracCommit lag wb de) := by
  intro r r1 wb1 ev h
  simp only [fracCommit] at h
  split at h
  · exact Except.noConfusion h
  · rename_i wb2 hfs
    split at h
    · exact Except.noConfusion h
    · rename_i ev2 hme
      injection h with h
      injection h with h1 h
      injection h with h2 h3
      subst h1
      subst h2
      subst h3
      obtain ⟨hres, hstart, hend⟩ := mkScheduleEvent_ok hme
      refine ⟨rfl, hres, ?_,
        ⟨max r.start_date (de + lag) + wb.frac_duration, hend, ?_, rfl⟩,
        set_frac_status_frac_duration hfs⟩
      · rw [hstart]
        exact le_max_left _ _
      · rw [hstart]
        exact le_add_of_nonneg_right hdur

/-- The commit function of fracScan satisfies commitSpec: the extra
drill_end and frac_lag extraction can only fail, and on success it is
fracCommit. -/
lemma fracScanCommit_spec (frac_lag : Option Int) (wb : WellBatch)
    (hdur : 0 ≤ wb.frac_duration) :
    commitSpec wb (fun crew =>
      match wb.drill_end with
      | none => .error (.typeError "unsupported operand types for + NoneType and timedelta")
      | some de =>
        match frac_lag with
        | none => .error (.typeError "unsupported type for timedelta days component NoneType")
        | some lag => fracCommit lag wb de crew) := by
  intro r r1 wb1 ev h
  cases hde : wb.drill_end with
  | none =>
    rw [hde] at h
    exact Except.noConfusion h
  | some de =>
    rw [hde] at h
    cases hlag : frac_lag with
    | none =>
      rw [hlag] at h
      exact Except.noConfusion h
    | some lag =>
      rw [hlag] at h
      exact fracCommit_spec lag wb de hdur r r1 wb1 ev h

lemma firstFit_ok {valid : Resource → Except PyErr Bool}
    {commit : Resource → Except PyErr (Resource × WellBatch × ScheduleEvent)}
    {wb : WellBatch} (hcs : commitSpec wb commit) :
    ∀ (pool : List Resource) (evs : List ScheduleEvent)
      {pool1 : List Resource} {wb1 : WellBatch} {evOpt : Option ScheduleEvent},
      firstFit valid commit wb pool = .ok (pool1, wb1, evOpt) →
      (pool.map rKey).Nodup →
      cursorInv pool evs →
      pool1.map rKey = pool.map rKey ∧
      cursorInv pool1 (evs ++ evOpt.toList) ∧
      (∀ ev, evOpt = some ev → (∀ e1 ∈ evs, gapOk e1 ev) ∧ evKey ev ∈ pool.map rKey) ∧
      wb1.frac_duration = wb.frac_duration := by
  intro pool
  induction pool with
  | nil =>
    intro evs pool1 wb1 evOpt h hnd hinv
    simp only [firstFit, Except.ok.injEq, Prod.mk.injEq] at h
    obtain ⟨h1, h2, h3⟩ := h
    subst h1
    subst h2
    subst h3
    refine ⟨rfl, ?_, ?_, rfl⟩
    · intro e he r hr hk
      exact absurd hr (List.not_mem_nil r)
    · intro ev hev
      exact Option.noConfusion hev
  | cons r rest ih =>
    intro evs pool1 wb1 evOpt h hnd hinv
    rw [List.map_cons, List.nodup_cons] at hnd
    obtain ⟨hnotin, hndrest⟩ := hnd
    have hinvrest : cursorInv rest evs := fun e he r2 hr2 hk =>
      hinv e he r2 (List.mem_cons_of_mem _ hr2) hk
    simp only [firstFit] at h
    split at h
    · exact Except.noConfusion h
    · -- valid r = .ok false: keep r, recurse on rest
      split at h
      · exact Except.noConfusion h
      · rename_i rest1 wb2 evOpt2 hrec
        injection h with h
        injection h with h1 h
        injection h with h2 h3
        subst h1
        subst h2
        subst h3
        obtain ⟨k1, k2, k3, k4⟩ := ih evs hrec hndrest hinvrest
        refine ⟨by simp [k1], ?_, ?_, k4⟩
        · intro e he r2 hr2 hk
          rcases List.mem_cons.mp hr2 with rfl | hr3
          · rcases List.mem_append.mp he with he1 | he2
            · exact hinv e he1 r2 (List.mem_cons_self _ _) hk
            · cases ho : evOpt2 with
              | none =>
                rw [ho] at he2
                simp at he2
              | some ev2 =>
                rw [ho] at he2
                have he3 : e = ev2 := by simpa using he2
                obtain ⟨_, hkey⟩ := k3 ev2 ho
                rw [← he3, ← hk] at hkey
                exact absurd hkey hnotin
          · exact k2 e he r2 hr3 hk
        · intro ev hev
          obtain ⟨g1, g2⟩ := k3 ev hev
          exact ⟨g1, List.mem_cons_of_mem _ g2⟩
    · -- valid r = .ok true: commit on r
      split at h
      · exact Except.noConfusion h
      · rename_i r1 wb2 ev2 hcm
        injection h with h
        injection h with h1 h
        injection h with h2 h3
        subst h1
        subst h2
        subst h3
        obtain ⟨hkey, hres, hstart, ⟨d, hd, hsd, hd1⟩, hfrac⟩ := hcs r r1 wb2 ev2 hcm
        have hkeyev : evKey ev2 = rKey r1 := by rw [evKey, hres]; rfl
        refine ⟨by simp [hkey], ?_, ?_, hfrac⟩
        · intro e he r2 hr2 hk
          rcases List.mem_append.mp he with he1 | he2
          · rcases List.mem_cons.mp hr2 with rfl | hr3
            · have hk2 : rKey r = evKey e := by rw [← hkey]; exact hk
              obtain ⟨d2, hd2, hle⟩ := hinv e he1 r (List.mem_cons_self _ _) hk2
              refine ⟨d2, hd2, ?_⟩
              rw [← hd1]
              have hrd : r.start_date ≤ d := le_trans hstart hsd
              linarith
            · exact hinv e he1 r2 (List.mem_cons_of_mem _ hr3) hk
          · have he3 : e = ev2 := by simpa using he2
            rcases List.mem_cons.mp hr2 with rfl | hr3
            · rw [he3]
              exact ⟨d, hd, le_of_eq hd1⟩
            · have hkr2 : rKey r2 = rKey r := by rw [hk, he3, hkeyev, hkey]
              have hmem : rKey r2 ∈ rest.map rKey := List.mem_map_of_mem rKey hr3
              rw [hkr2] at hmem
              exact absurd hmem hnotin
        · intro ev hev
          injection hev with hev
          subst hev
          constructor
          · intro e1 he1 hk
            have hk2 : rKey r = evKey e1 := by rw [hk, hkeyev, hkey]
            obtain ⟨d2, hd2, hle⟩ := hinv e1 he1 r (List.mem_cons_self _ _) hk2
            exact ⟨d2, hd2, le_trans hle hstart⟩
          · rw [hkeyev, hkey]
            exact List.mem_cons_self _ _

lemma cursorInv_of_mem {pool1 pool2 : List Resource} {evs : List ScheduleEvent}
    (hsub : ∀ r ∈ pool1, r ∈ pool2) (h : cursorInv pool2 evs) : cursorInv pool1 evs :=
  fun e he r hr hk => h e he r (hsub r hr) hk

lemma forall_nonneg_of_map_eq {l1 l2 : List WellBatch}
    (h : l1.map (fun b => b.frac_duration) = l2.map (fun b => b.frac_duration))
    (hp : ∀ b ∈ l2, 0 ≤ b.frac_duration) : ∀ b ∈ l1, 0 ≤ b.frac_duration := by
  intro b hb
  have hm : b.frac_duration ∈ l1.map (fun b => b.frac_duration) :=
    List.mem_map_of_mem _ hb
  rw [h] at hm
  obtain ⟨c, hc, hfc⟩ := List.mem_map.mp hm
  rw [← hfc]
  exact hp c hc

lemma phaseLoop_ok
    {scan : WellBatch → List Resource →
      Except PyErr (List Resource × WellBatch × Option ScheduleEvent)} :
    ∀ (batches : List WellBatch) (pool : List Resource) (evs : List ScheduleEvent)
      {batches1 : List WellBatch} {pool1 : List Resource} {evs1 : List ScheduleEvent},
      phaseLoop scan batches pool evs = .ok (batches1, pool1, evs1) →
      (∀ wb ∈ batches, ∀ (p : List Resource) (es : List ScheduleEvent)
        (p1 : List Resource) (w1 : WellBatch) (eo : Option ScheduleEvent),
        scan wb p = .ok (p1, w1, eo) → (p.map rKey).Nodup → cursorInv p es →
        p1.map rKey = p.map rKey ∧ cursorInv p1 (es ++ eo.toList) ∧
        (∀ ev, eo = some ev → (∀ e1 ∈ es, gapOk e1 ev) ∧ evKey ev ∈ p.map rKey) ∧
        w1.frac_duration = wb.frac_duration) →
      (pool.map rKey).Nodup →
      cursorInv pool evs →
      evs.Pairwise gapOk →
      (pool1.map rKey).Perm (pool.map rKey) ∧
      cursorInv pool1 evs1 ∧
      evs1.Pairwise gapOk ∧
      (∀ e ∈ evs1, e ∈ evs ∨ evKey e ∈ pool.map rKey) ∧
      batches1.map (fun b => b.frac_duration) = batches.map (fun b => b.frac_duration) := by
  intro batches
  induction batches with
  | nil =>
    intro pool evs batches1 pool1 evs1 h hscan hnd hinv hpw
    simp only [phaseLoop, Except.ok.injEq, Prod.mk.injEq] at h
    obtain ⟨h1, h2, h3⟩ := h
    subst h1
    subst h2
    subst h3
    exact ⟨List.Perm.refl _, hinv, hpw, fun e he => Or.inl he, rfl⟩
  | cons wb rest ih =>
    intro pool evs batches1 pool1 evs1 h hscan hnd hinv hpw
    simp only [phaseLoop] at h
    split at h
    · exact Except.noConfusion h
    · rename_i p1 w1 eo hsc
      split at h
      · exact Except.noConfusion h
      · rename_i rest1 pool3 evs2 hrec
        injection h with h
        injection h with h1 h
        injection h with h2 h3
        subst h1
        subst h2
        subst h3
        obtain ⟨s1, s2, s3, s4⟩ := hscan wb (List.mem_cons_self _ _) pool evs p1 w1 eo hsc hnd hinv
        have hperm1 : List.Perm (sortResources p1) p1 := List.perm_insertionSort _ p1
        have hpermkeys : List.Perm ((sortResources p1).map rKey) (pool.map rKey) := by
          refine (hperm1.map rKey).trans ?_
          rw [s1]
        have hnd2 : ((sortResources p1).map rKey).Nodup := hpermkeys.nodup_iff.mpr hnd
        have hinv2 : cursorInv (sortResources p1) (evs ++ eo.toList) :=
          cursorInv_of_mem (fun r hr => hperm1.mem_iff.mp hr) s2
        have hpw2 : (evs ++ eo.toList).Pairwise gapOk := by
          rw [List.pairwise_append]
          refine ⟨hpw, ?_, ?_⟩
          · cases eo <;> simp
          · intro a ha b hb
            cases ho : eo with
            | none =>
              rw [ho] at hb
              simp at hb
            | some ev =>
              rw [ho] at hb
              have hb2 : b = ev := by simpa using hb
              rw [hb2]
              exact (s3 ev ho).1 a ha
        obtain ⟨i1, i2, i3, i4, i5⟩ := ih (sortResources p1) (evs ++ eo.toList) hrec
          (fun wb2 hwb2 => hscan wb2 (List.mem_cons_of_mem _ hwb2)) hnd2 hinv2 hpw2
        refine ⟨i1.trans hpermkeys, i2, i3, ?_, ?_⟩
        · intro e he
          rcases i4 e he with hin | hkey
          · rcases List.mem_append.mp hin with he1 | he2
            · exact Or.inl he1
            · cases ho : eo with
              | none =>
                rw [ho] at he2
                simp at he2
              | some ev =>
                rw [ho] at he2
                have he3 : e = ev := by simpa using he2
                rw [he3]
                exact Or.inr (s3 ev ho).2
          · exact Or.inr (hpermkeys.mem_iff.mp hkey)
        · simp only [List.map_cons, s4, i5]

/-- Claim C9: after a completed schedule() run on a fresh scheduler whose
rigs and crews have pairwise distinct keys within each pool and whose
batches have non-negative durations, no resource is double-booked: for any
two events on the same resource, in log order, the earlier assignment
interval ends at least one day before the later one starts (gapOk), so
the occupancy intervals are pairwise non-overlapping with a one-day gap,
as enforced by the busy-until cursor rule. -/
theorem c9_no_double_booking (s st : Scheduler) (simops : Bool)
    (hkr : ∀ r ∈ s.rigs, r.kind = .rig)
    (hkc : ∀ c ∈ s.frac_crews, c.kind = .fracCrew)
    (hnr : (s.rigs.map rKey).Nodup)
    (hnc : (s.frac_crews.map rKey).Nodup)
    (hdur : ∀ wb ∈ s.well_batches, 0 ≤ wb.drill_duration ∧ 0 ≤ wb.frac_duration)
    (hfresh : s.schedule_events = [])
    (hrun : s.schedule simops = .ok st) :
    st.schedule_events.Pairwise gapOk := by
  have hbperm : List.Perm (sortBatches s.well_batches) s.well_batches :=
    List.perm_insertionSort _ _
  have hrigperm : List.Perm (sortResources s.rigs) s.rigs :=
    List.perm_insertionSort _ _
  have hcrewperm : List.Perm (sortResources s.frac_crews) s.frac_crews :=
    List.perm_insertionSort _ _
  simp only [Scheduler.schedule] at hrun
  split at hrun
  · exact Except.noConfusion hrun
  · rename_i pairs hpairs
    split at hrun
    · exact Except.noConfusion hrun
    · rename_i batches1 rigs1 evs1 hdrill
      split at hrun
      · exact Except.noConfusion hrun
      · rename_i batches2 crews1 evs2 hfrac
        injection hrun with hrun
        subst hrun
        rw [hfresh] at hdrill
        have hndr : ((sortResources s.rigs).map rKey).Nodup :=
          (hrigperm.map rKey).nodup_iff.mpr hnr
        have hscan_d : ∀ wb ∈ sortBatches s.well_batches,
            ∀ (p : List Resource) (es : List ScheduleEvent)
              (p1 : List Resource) (w1 : WellBatch) (eo : Option ScheduleEvent),
            drillScan s.frac_lag wb p = .ok (p1, w1, eo) →
            (p.map rKey).Nodup → cursorInv p es →
            p1.map rKey = p.map rKey ∧ cursorInv p1 (es ++ eo.toList) ∧
            (∀ ev, eo = some ev → (∀ e1 ∈ es, gapOk e1 ev) ∧ evKey ev ∈ p.map rKey) ∧
            w1.frac_duration = wb.frac_duration := by
          intro wb hwb p es p1 w1 eo hsc hndp hinvp
          have hd0 : 0 ≤ wb.drill_duration := (hdur wb (hbperm.mem_iff.mp hwb)).1
          exact firstFit_ok (drillCommit_spec wb hd0) p es hsc hndp hinvp
        have hinv0 : cursorInv (sortResources s.rigs) [] := by
          intro e he
          exact absurd he (List.not_mem_nil e)
        obtain ⟨dperm, dinv, dpw, dorigin, dfrac⟩ :=
          phaseLoop_ok (sortBatches s.well_batches) (sortResources s.rigs) []
            hdrill hscan_d hndr hinv0 List.Pairwise.nil
        have hndc : ((sortResources s.frac_crews).map rKey).Nodup :=
          (hcrewperm.map rKey).nodup_iff.mpr hnc
        have hinvc : cursorInv (sortResources s.frac_crews) evs1 := by
          intro e he c hc hk
          rcases dorigin e he with hin | hkey
          · exact absurd hin (List.not_mem_nil e)
          · exfalso
            obtain ⟨r0, hr0, hr0k⟩ := List.mem_map.mp hkey
            have hr0rig : r0.kind = .rig := hkr r0 (hrigperm.mem_iff.mp hr0)
            have hckind : c.kind = .fracCrew := hkc c (hcrewperm.mem_iff.mp hc)
            have hkk : c.kind = r0.kind := congrArg Prod.fst (hk.trans hr0k.symm)
            rw [hckind, hr0rig] at hkk
            exact ResKind.noConfusion hkk
        have hfd1 : ∀ b ∈ batches1, 0 ≤ b.frac_duration :=
          forall_nonneg_of_map_eq dfrac
            (fun b hb => (hdur b (hbperm.mem_iff.mp hb)).2)
        have hscan_f : ∀ wb ∈ batches1,
            ∀ (p : List Resource) (es : List ScheduleEvent)
              (p1 : List Resource) (w1 : WellBatch) (eo : Option ScheduleEvent),
            fracScan s.frac_lag wb p = .ok (p1, w1, eo) →
            (p.map rKey).Nodup → cursorInv p es →
            p1.map rKey = p.map rKey ∧ cursorInv p1 (es ++ eo.toList) ∧
            (∀ ev, eo = some ev → (∀ e1 ∈ es, gapOk e1 ev) ∧ evKey ev ∈ p.map rKey) ∧
            w1.frac_duration = wb.frac_duration := by
          intro wb hwb p es p1 w1 eo hsc hndp hinvp
          exact firstFit_ok (fracScanCommit_spec s.frac_lag wb (hfd1 wb hwb)) p es hsc hndp hinvp
        obtain ⟨fperm, finv, fpw, forigin, ffrac⟩ :=
          phaseLoop_ok batches1 (sortResources s.frac_crews) evs1
            hfrac hscan_f hndc hinvc dpw
        exact fpw

/-- A small concrete scheduler for exercising c9_no_double_booking. -/
def c9sched : Scheduler :=
  (mkScheduler
    [mkRig "Rig 1" d0 none]
    [mkCrew "Crew 1" d0 none]
    [mkWellBatch "Pad 1" [wPlain "Well 1" 5 3] none]).set_frac_lag 2

/-- The event log of a completed run, empty on error. -/
def okEvents : Except PyErr Scheduler → List ScheduleEvent
  | .ok st => st.schedule_events
  | .error _ => []

/-- Witness for c9_no_double_booking on the concrete one-rig, one-crew,
one-batch scheduler. -/
theorem c9_witness : (okEvents (c9sched.schedule false)).Pairwise gapOk := by
  obtain ⟨st, hst⟩ : ∃ st, c9sched.schedule false = .ok st := ⟨_, rfl⟩
  have h := c9_no_double_booking c9sched st false (by decide) (by decide)
    (by decide) (by decide) (by decide) rfl hst
  rw [hst]
  exact h
